import Mathlib

/-
Verification of the ifrit gossip-based membership core against its
natural-language specification.

The Go sources embedded here:
  * `core/handlers.go`  — Spread, mergeViews, mergeNotes, mergeAccusations,
    evalAccusation, evalNote, evalCertificate (the protocol kernel).
  * `lib/node/ping.go`  — the older protocol-strategy file, whose
    `correct.Monitor` produces accusations on ping failure.
  * the client facade — `SetGossipContent`.

The `discovery` package (Peer records, the View, Note/Accusation helper
methods) is not part of the sources; every definition standing in for it
carries a doc comment starting `Modelled from the spec:`.

Machine integers (uint64 epochs, uint32 ring numbers) are modelled as Nat:
the kernel only compares and increments them, so no overflow behaviour is
observable at the scale of these claims.  Cryptographic signature checks and
ring-topology queries are modelled as boolean oracles collected in `Env`,
quantified over in every theorem.
-/

namespace Ifrit

/-- Wire/stored note (gossip.Note / discovery note): peer id, epoch, mask
(one byte per ring, as produced by the mask generator), signature (r, s). -/
structure Note where
  id : String
  epoch : Nat
  mask : List Nat
  signR : Nat
  signS : Nat
  deriving DecidableEq

/-- Stored accusation (discovery accusation): accused, accuser, ring number,
epoch, the accused's mask at accusation time, signature. -/
structure Accusation where
  accused : String
  accuser : String
  ringNum : Nat
  epoch : Nat
  mask : List Nat
  signR : Nat
  signS : Nat
  deriving DecidableEq

/-- Wire accusation (gossip.Accusation) as read by `evalAccusation` and
`mergeAccusations`: GetAccused, GetAccuser, GetEpoch, GetRingNum,
GetSignature. -/
structure WireAcc where
  accused : String
  accuser : String
  epoch : Nat
  ringNum : Nat
  signR : Nat
  signS : Nat
  deriving DecidableEq

/-- Modelled from the spec: the per-peer record of the `discovery` package —
certificate identity, optional current note, per-ring accusations, ping
counter (§3.4).  The certificate is abstracted to the peer id it certifies. -/
structure Peer where
  id : String
  note : Option Note
  accusations : List Accusation
  nPing : Nat
  deriving DecidableEq

/-- Modelled from the spec: the concurrent View plus the node's own identity
(§3.6): full view (peer records, self excluded), live subset (ids),
accusation timers (ids), ring count and byzantine tolerance for mask
validation, and the node's own note. -/
structure NodeState where
  selfId : String
  selfNote : Note
  peers : List Peer
  live : List String
  timers : List String
  numRings : Nat
  maxByz : Nat
  deriving DecidableEq

/-- Oracles for the parts of the system the kernel only queries:
signature verification, CA validation, and ring-topology predicates. -/
structure Env where
  validAccuser : String → String → Nat → Bool
  accSig : WireAcc → String → Bool
  noteSig : Note → String → Bool
  caSig : String → Bool
  shouldBeNeighbour : String → Bool
  findNeighbours : String → List String
  gossipHandler : Option (List Nat → List Nat)

/-- Errors of the evaluation kernel (`errNoPeer`, `errOldNote`, ...). -/
inductive EvalErr where
  | noPeer
  | oldNote
  | invalidMask
  | invalidSignature
  | invalidSelfAcc
  | accAlreadyExists
  | disabledRing
  | invalidAccuser
  | invalidEpoch
  | notMyNeighbour
  | selfCert
  | invalidId
  | caSigFail
  deriving DecidableEq

/-- gossip.StateResponse: certificates (abstracted to the certified ids),
notes, accusations, external gossip payload. -/
structure Reply where
  certIds : List String
  notes : List Note
  accusations : List Accusation
  externalGossip : Option (List Nat)
  deriving DecidableEq

/-- gossip.State: the caller's own note, its id→epoch map, its payload. -/
structure SpreadArgs where
  ownNote : Option Note
  existingHosts : Option (List (String × Nat))
  externalGossip : Option (List Nat)
  deriving DecidableEq

/-- Result of a Spread RPC: post state, optional reply, optional error. -/
structure SpreadResult where
  st : NodeState
  reply : Option Reply
  err : Option EvalErr
  deriving DecidableEq

def emptyReply : Reply := ⟨[], [], [], none⟩

/-- The protobuf getter defaults of a nil gossip.Note: empty id, epoch 0,
nil mask, zero signature. -/
def zeroNote : Note := ⟨"", 0, [], 0, 0⟩

/-- view.Peer(id): lookup in the full view. -/
def findPeer (peers : List Peer) (id : String) : Option Peer :=
  peers.find? (fun q => q.id == id)

/-- Write back a mutated peer record (Go mutates the record in place through
a pointer held by the view map; here the record is replaced by id). -/
def updatePeer (peers : List Peer) (p : Peer) : List Peer :=
  peers.map (fun q => if q.id == p.id then p else q)

/-- Modelled from the spec: view.IsAlive — membership in the live subset. -/
def isAlive (st : NodeState) (id : String) : Bool :=
  st.live.contains id

/-- Modelled from the spec: view.HasTimer — a timer is open for the id. -/
def hasTimer (st : NodeState) (id : String) : Bool :=
  st.timers.contains id

/-- Modelled from the spec: view.AddLive. -/
def addLive (st : NodeState) (p : Peer) : NodeState :=
  { st with live := p.id :: st.live }

/-- Modelled from the spec: view.DeleteTimeout. -/
def deleteTimeout (st : NodeState) (id : String) : NodeState :=
  { st with timers := st.timers.filter (fun t => !(t == id)) }

/-- Modelled from the spec: view.StartTimer (§4.2, §4.7).  The timer's
payload (observed note, accuser, deadline) plays no part in the claims, so
a timer is recorded by the accused peer's id alone. -/
def startTimer (st : NodeState) (id : String) : NodeState :=
  { st with timers := id :: st.timers }

/-- Modelled from the spec: Note.IsMoreRecent(epoch) — true when the given
epoch is strictly more recent than this note's.  Pinned by §4.3:
"If `p.note` exists and `p.note.epoch ≥ note.epoch` → `OldNote`" against
the call `!note.IsMoreRecent(epoch)`, and by the replacement rule
"If incoming is strictly newer ... Replace `p.note`". -/
def Note.IsMoreRecent (n : Note) (epoch : Nat) : Bool :=
  n.epoch < epoch

/-- Modelled from the spec: Accusation.IsMoreRecent(epoch), pinned by §4.3:
"Remove every accusation `a` with `a.epoch < note.epoch` (rebuttal)". -/
def Accusation.IsMoreRecent (a : Accusation) (epoch : Nat) : Bool :=
  a.epoch < epoch

/-- The `note != nil && !note.IsMoreRecent(epoch)` guard of evalNote. -/
def isOldNote : Option Note → Nat → Bool
  | none, _ => false
  | some n, e => !(n.IsMoreRecent e)

/-- The `note == nil || note.IsMoreRecent(epoch)` replacement condition. -/
def noteAbsentOrStale : Option Note → Nat → Bool
  | none, _ => true
  | some n, e => n.IsMoreRecent e

/-- Modelled from the spec: view.ValidMask (§4.2) — length K and no more
disabled rings than the byzantine tolerance allows. -/
def validMask (st : NodeState) (mask : List Nat) : Bool :=
  mask.length == st.numRings && decide (mask.countP (fun b => b == 0) ≤ st.maxByz)

/-- Modelled from the spec: view.IsRingDisabled (§4.2) — entry `ring_num`
of the mask is zero. -/
def isRingDisabled (mask : List Nat) (ring : Nat) : Bool :=
  mask.getD ring 0 == 0

/-- Modelled from the spec: Peer.RingAccusation — the stored accusation for
one ring (§3.4 keeps at most one per ring). -/
def ringAccusation (p : Peer) (ring : Nat) : Option Accusation :=
  p.accusations.find? (fun a => a.ringNum == ring)

/-- The `acc != nil && acc.Equal(p.Id, accuserPeer.Id, ringNum, epoch)`
guard of evalAccusation: an equal accusation is already stored. -/
def accExists (p : Peer) (accuserId : String) (ring epoch : Nat) : Bool :=
  match ringAccusation p ring with
  | some sa => sa.accused == p.id && sa.accuser == accuserId &&
      sa.ringNum == ring && sa.epoch == epoch
  | none => false

/-- Modelled from the spec: Peer.AddAccusation — store the accusation,
keeping at most one per ring (§3.3 invariant, §4.3 step 7). -/
def addAccusation (p : Peer) (accuserId : String) (epoch : Nat)
    (mask : List Nat) (ring : Nat) (r s : Nat) : Peer :=
  { p with accusations :=
      p.accusations.filter (fun a => !(a.ringNum == ring)) ++
        [⟨p.id, accuserId, ring, epoch, mask, r, s⟩] }

/-- Modelled from the spec: Peer.RemoveAccusation is subsumed by the filter
in `evalNote`; Peer.AddNote replaces the record's current note. -/
def addNote (p : Peer) (mask : List Nat) (epoch : Nat) (r s : Nat) : Peer :=
  { p with note := some ⟨p.id, epoch, mask, r, s⟩ }

/-- Modelled from the spec: Peer.IsAccused — some accusation is stored. -/
def Peer.IsAccused (p : Peer) : Bool :=
  !p.accusations.isEmpty

/-- Modelled from the spec: view.ShouldRebuttal (§4.2) — the accusation
targets self's current epoch on a ring self has enabled. -/
def shouldRebuttal (st : NodeState) (epoch ring : Nat) : Bool :=
  epoch == st.selfNote.epoch && !(isRingDisabled st.selfNote.mask ring)

/-- Modelled from the spec: the protocol strategy's Rebuttal (§4.2, §4.8) —
bump the self note's epoch and rebroadcast; only the state change (the
epoch bump) is visible to the kernel. -/
def rebuttal (st : NodeState) : NodeState :=
  { st with selfNote := { st.selfNote with epoch := st.selfNote.epoch + 1 } }

/-- n.self as a peer record argument for evalAccusation; only its id is
consulted there (the self branch fires first). -/
def selfAsPeer (st : NodeState) : Peer :=
  ⟨st.selfId, some st.selfNote, [], 0⟩

/-- Map lookup in the requester's existing_hosts. -/
def lookupEpoch (given : List (String × Nat)) (id : String) : Option Nat :=
  (given.find? (fun kv => kv.1 == id)).map (fun kv => kv.2)

/-- Accusations currently stored against `id` (empty if unknown). -/
def accsInView (st : NodeState) (id : String) : List Accusation :=
  match findPeer st.peers id with
  | some q => q.accusations
  | none => []

/-- Whether `id` currently has any stored accusation in the view. -/
def accusedInView (st : NodeState) (id : String) : Bool :=
  match findPeer st.peers id with
  | some q => q.IsAccused
  | none => false

/-- Node.evalNote, branch for a peer with no stored accusations
(handlers.go 312–326). -/
def evalNoteFresh (env : Env) (st : NodeState) (p : Peer) (gn : Note) :
    NodeState × Option EvalErr :=
  if noteAbsentOrStale p.note gn.epoch then
    if !(env.noteSig gn p.id) then (st, some .invalidSignature)
    else
      let p1 := addNote p gn.mask gn.epoch gn.signR gn.signS
      let st1 := { st with peers := updatePeer st.peers p1 }
      if !(isAlive st1 p1.id) then (addLive st1 p1, none) else (st1, none)
  else (st, none)

/-- Node.evalNote, branch for an accused peer (handlers.go 327–358):
verify the signature, drop every accusation the note invalidates, replace
the note when strictly newer, and if no accusation remains reset the ping
counter, cancel the timer and re-add the peer to the live view. -/
def evalNoteRebut (env : Env) (st : NodeState) (p : Peer) (gn : Note) :
    NodeState × Option EvalErr :=
  if !(env.noteSig gn p.id) then (st, some .invalidSignature)
  else
    let p1 := { p with accusations :=
      p.accusations.filter (fun a => !(a.IsMoreRecent gn.epoch)) }
    let p2 := if noteAbsentOrStale p.note gn.epoch then
        addNote p1 gn.mask gn.epoch gn.signR gn.signS
      else p1
    if p2.IsAccused then
      ({ st with peers := updatePeer st.peers p2 }, none)
    else
      let p3 := { p2 with nPing := 0 }
      let st1 := { st with peers := updatePeer st.peers p3 }
      let st2 := if hasTimer st1 p3.id then deleteTimeout st1 p3.id else st1
      if !(isAlive st2 p3.id) then (addLive st2 p3, none) else (st2, none)

/-- Node.evalNote (handlers.go 291–361). -/
def evalNote (env : Env) (st : NodeState) (gn : Note) :
    NodeState × Option EvalErr :=
  match findPeer st.peers gn.id with
  | none => (st, some .noPeer)
  | some p =>
    if isOldNote p.note gn.epoch then (st, some .oldNote)
    else if !(validMask st gn.mask) then (st, some .invalidMask)
    else if p.accusations.isEmpty then evalNoteFresh env st p gn
    else evalNoteRebut env st p gn

/-- Node.evalAccusation (handlers.go 236–289). -/
def evalAccusation (env : Env) (st : NodeState) (a : WireAcc)
    (accuserId : String) (p : Peer) : NodeState × Option EvalErr :=
  if st.selfId == p.id then
    if shouldRebuttal st a.epoch a.ringNum then (rebuttal st, none)
    else (st, some .invalidSelfAcc)
  else if accExists p accuserId a.ringNum a.epoch then
    (if !(hasTimer st p.id) && isAlive st p.id then startTimer st p.id else st,
     some .accAlreadyExists)
  else
    match p.note with
    | some note =>
      if note.epoch == a.epoch then
        if isRingDisabled note.mask a.ringNum then (st, some .disabledRing)
        else if !(env.validAccuser p.id accuserId a.ringNum) then
          (st, some .invalidAccuser)
        else if !(env.accSig a accuserId) then (st, some .invalidSignature)
        else
          let p1 := addAccusation p accuserId a.epoch note.mask a.ringNum
            a.signR a.signS
          let st1 := { st with peers := updatePeer st.peers p1 }
          (if !(hasTimer st1 p1.id) && isAlive st1 p1.id then
             startTimer st1 p1.id else st1, none)
      else (st, some .invalidEpoch)
    | none => (st, some .invalidEpoch)

/-- Node.evalCertificate (handlers.go 363–388), certificates abstracted to
the id they certify (SubjectKeyId), CA validation as an oracle. -/
def evalCertificate (env : Env) (st : NodeState) (certId : String) :
    NodeState × Option EvalErr :=
  if st.selfId == certId then (st, some .selfCert)
  else if !(certId.length == 32) then (st, some .invalidId)
  else if !(env.caSig certId) then (st, some .caSigFail)
  else if (findPeer st.peers certId).isSome then (st, none)
  else ({ st with peers := st.peers ++ [⟨certId, none, [], 0⟩] }, none)

/-- Node.mergeViews (handlers.go 143–169). -/
def mergeViews (st : NodeState) (given : List (String × Nat)) (reply : Reply) :
    Reply :=
  let r := st.peers.foldl (fun r p =>
    let r1 := match lookupEpoch given p.id with
      | none =>
        let rc := { r with certIds := r.certIds ++ [p.id] }
        match p.note with
        | some note => { rc with notes := rc.notes ++ [note] }
        | none => rc
      | some e =>
        match p.note with
        | some note =>
          if note.IsMoreRecent e then { r with notes := r.notes ++ [note] }
          else r
        | none => r
    { r1 with accusations := r1.accusations ++ p.accusations }) reply
  match lookupEpoch given st.selfId with
  | none => { r with notes := r.notes ++ [st.selfNote] }
  | some e =>
    if st.selfNote.IsMoreRecent e then { r with notes := r.notes ++ [st.selfNote] }
    else r

/-- Node.mergeNotes (handlers.go 171–186): skip notes about self, feed the
rest to evalNote (whose errors are only logged). -/
def mergeNotes (env : Env) (st : NodeState) : List Note → NodeState
  | [] => st
  | gn :: rest =>
    if st.selfId == gn.id then mergeNotes env st rest
    else mergeNotes env (evalNote env st gn).1 rest

/-- The accused-resolution half of one mergeAccusations iteration
(handlers.go 204–215). -/
def mergeAccAccused (env : Env) (s : NodeState) (a : WireAcc)
    (accuserId : String) : NodeState :=
  if a.accused == s.selfId then
    (evalAccusation env s a accuserId (selfAsPeer s)).1
  else
    match findPeer s.peers a.accused with
    | none => s
    | some q =>
      if q.note.isNone then s
      else (evalAccusation env s a accuserId q).1

/-- One iteration of Node.mergeAccusations (handlers.go 193–215): resolve
the accuser (self or a known peer, else drop), resolve the accused (self,
or a known peer with a stored note, else drop), then evalAccusation. -/
def mergeOneAccusation (env : Env) (s : NodeState) (a : WireAcc) : NodeState :=
  if a.accuser == s.selfId then mergeAccAccused env s a s.selfId
  else
    match findPeer s.peers a.accuser with
    | none => s
    | some _ => mergeAccAccused env s a a.accuser

/-- Node.mergeAccusations (handlers.go 188–216). -/
def mergeAccusations (env : Env) (st : NodeState) : List WireAcc → NodeState
  | [] => st
  | a :: rest => mergeAccusations env (mergeOneAccusation env st a) rest

/-- Spread case A (handlers.go 56–81): the sender should be a neighbour. -/
def spreadCaseA (env : Env) (st : NodeState) (remoteId : String)
    (args : SpreadArgs) : SpreadResult :=
  let c := evalCertificate env st remoteId
  match c.2 with
  | some e => ⟨c.1, none, some e⟩
  | none =>
    let st2 := (evalNote env c.1 (args.ownNote.getD zeroNote)).1
    let reply1 := match args.existingHosts with
      | some hosts => mergeViews st2 hosts emptyReply
      | none => emptyReply
    let reply2 := match env.gossipHandler, args.externalGossip with
      | some h, some g => { reply1 with externalGossip := some (h g) }
      | _, _ => reply1
    ⟨st2, some reply2, none⟩

/-- Spread case B (handlers.go 82–98): sender observed but not a neighbour.
Its note is evaluated either way; if it is currently accused the reply
carries all accusations now stored against it, else NotMyNeighbour. -/
def spreadCaseB (env : Env) (st : NodeState) (remoteId : String)
    (args : SpreadArgs) (peer : Peer) : SpreadResult :=
  if !(peer.IsAccused) then
    ⟨(evalNote env st (args.ownNote.getD zeroNote)).1, none, some .notMyNeighbour⟩
  else
    let st1 := (evalNote env st (args.ownNote.getD zeroNote)).1
    ⟨st1, some { emptyReply with accusations := accsInView st1 remoteId }, none⟩

/-- Spread case C (handlers.go 99–119): unknown sender bootstrap — reply
with self's certificate and note plus those of the sender's neighbours. -/
def spreadCaseC (env : Env) (st : NodeState) (remoteId : String)
    (args : SpreadArgs) : SpreadResult :=
  let c := evalCertificate env st remoteId
  match c.2 with
  | some e => ⟨c.1, none, some e⟩
  | none =>
    let st2 := (evalNote env c.1 (args.ownNote.getD zeroNote)).1
    let r0 : Reply := { emptyReply with certIds := [st2.selfId], notes := [st2.selfNote] }
    let r1 := (env.findNeighbours remoteId).foldl (fun r nid =>
      match findPeer st2.peers nid with
      | some p =>
        let rc := { r with certIds := r.certIds ++ [p.id] }
        match p.note with
        | some note => { rc with notes := rc.notes ++ [note] }
        | none => rc
      | none => r) r0
    ⟨st2, some r1, none⟩

/-- Node.Spread (handlers.go 41–123), after TLS-context validation has
yielded the sender's certified id. -/
def Spread (env : Env) (st : NodeState) (remoteId : String)
    (args : SpreadArgs) : SpreadResult :=
  let peer0 := findPeer st.peers remoteId
  if env.shouldBeNeighbour remoteId then spreadCaseA env st remoteId args
  else
    match peer0 with
    | some peer => spreadCaseB env st remoteId args peer
    | none => spreadCaseC env st remoteId args

/-! ### The older protocol-strategy codebase (lib/node/ping.go)

`correct.Monitor` there belongs to an earlier generation of the node: a
single peer record per view entry, a single stored accusation per peer
(`setAccusation` / `getAccusation`, no ring field), and accusations carrying
`epoch = note.epoch + 1`. -/

/-- The old codebase's note: id, epoch, mask (signature abstracted away:
signing never fails in the modelled path). -/
structure OldNote where
  id : String
  epoch : Nat
  mask : List Nat
  deriving DecidableEq

/-- The old codebase's accusation struct: accused peer id, epoch, accuser,
mask.  `correct.Monitor` leaves the mask at its zero value and the struct
has no ring-number field at all. -/
structure OldAcc where
  peerId : String
  epoch : Nat
  accuser : String
  mask : List Nat
  deriving DecidableEq

/-- The old codebase's peer record: map key, peer id, address, most recent
note, the single stored accusation. -/
structure OldPeer where
  key : String
  id : String
  addr : String
  recentNote : Option OldNote
  currentAcc : Option OldAcc
  deriving DecidableEq

/-- ring.getRingSucc's result: the successor's address and view-map key. -/
structure RingSucc where
  addr : String
  peerKey : String
  deriving DecidableEq

/-- The old Node: own id, own address, the ring successors (None for a ring
whose successor lookup errored), the view map, and the timeout map keys. -/
structure OldNode where
  selfId : String
  localAddr : String
  rings : List (Option RingSucc)
  peers : List OldPeer
  timers : List String
  deriving DecidableEq

def findOldPeer (ps : List OldPeer) (key : String) : Option OldPeer :=
  ps.find? (fun q => q.key == key)

def updateOldPeer (ps : List OldPeer) (p : OldPeer) : List OldPeer :=
  ps.map (fun q => if q.key == p.key then p else q)

/-- Modelled from the spec: the old peer's setAccusation — store the
accusation on the record (§4.3 step 7 "Store the accusation"). -/
def setAccusation (p : OldPeer) (a : OldAcc) : OldPeer :=
  { p with currentAcc := some a }

/-- The accusation currently stored against the peer with the given view
key (getAccusation through the view map). -/
def oldAccOf (n : OldNode) (key : String) : Option OldAcc :=
  match findOldPeer n.peers key with
  | some q => q.currentAcc
  | none => none

/-- correct.Monitor's per-ring loop (ping.go 217–270).  `fails addr` is
whether the Monitor RPC to `addr` errors.  A successor with no stored note
makes the whole function return early (the bare `return` in the source). -/
def monitorGo (fails : String → Bool) : OldNode → List (Option RingSucc) → OldNode
  | n, [] => n
  | n, none :: rest => monitorGo fails n rest
  | n, some succ :: rest =>
    if succ.addr == n.localAddr then monitorGo fails n rest
    else if fails succ.addr then
      match findOldPeer n.peers succ.peerKey with
      | none => monitorGo fails n rest
      | some p =>
        match p.recentNote with
        | none => n
        | some peerNote =>
          let a : OldAcc := ⟨p.id, peerNote.epoch + 1, n.selfId, []⟩
          let p1 := setAccusation p a
          let n1 := { n with peers := updateOldPeer n.peers p1 }
          let n2 := if n1.timers.contains p.key then n1
            else { n1 with timers := p.key :: n1.timers }
          monitorGo fails n2 rest
    else monitorGo fails n rest

/-- correct.Monitor (ping.go 214–271). -/
def Monitor (fails : String → Bool) (n : OldNode) : OldNode :=
  monitorGo fails n n.rings

/-! ### The client facade (the unnamed source file, package ifrit) -/

/-- The error the client facade raises on empty gossip data. -/
inductive ClientErr where
  | noData
  deriving DecidableEq

/-- The slice of client state SetGossipContent touches.  Modelled from the
spec: core.Node.SetExternalGossipContent (§6.4) replaces the payload
piggy-backed on outgoing Spread calls. -/
structure ClientState where
  gossipContent : Option (List Nat)
  deriving DecidableEq

/-- Client.SetGossipContent (facade lines 127–135): reject length-0 data
with errNoData, otherwise replace the outgoing gossip payload. -/
def SetGossipContent (c : ClientState) (data : List Nat) :
    ClientState × Option ClientErr :=
  if data.length ≤ 0 then (c, some .noData)
  else ({ c with gossipContent := some data }, none)

/-! ### Concrete sample data for counterexamples and witnesses -/

/-- A permissive oracle environment for concrete runs: every signature,
CA and accuser-topology check passes; nobody is a gossip neighbour. -/
def allOkEnv : Env :=
  ⟨fun _ _ _ => true, fun _ _ => true, fun _ _ => true, fun _ => true,
   fun _ => false, fun _ => [], none⟩

/-- C1 sample: a live, timerless, unaccused peer with a current note. -/
def c1Peer : Peer := ⟨"aaaa", some ⟨"aaaa", 1, [1], 0, 0⟩, [], 0⟩

/-- C1 sample state: `aaaa` is in the live view, no timers. -/
def c1St : NodeState := ⟨"ssss", ⟨"ssss", 9, [1], 0, 0⟩, [c1Peer], ["aaaa"], [], 1, 0⟩

/-- C1 sample wire accusation against `aaaa` at its note epoch, ring 0. -/
def c1Acc : WireAcc := ⟨"aaaa", "bbbb", 1, 0, 0, 0⟩

/-- C2 sample: an accused peer — note epoch 1, one stored accusation whose
epoch 3 equals the incoming rebuttal note's epoch exactly. -/
def c2Peer : Peer :=
  ⟨"aaaa", some ⟨"aaaa", 1, [1], 0, 0⟩, [⟨"aaaa", "bbbb", 0, 3, [1], 0, 0⟩], 0⟩

/-- C2 sample state. -/
def c2St : NodeState := ⟨"ssss", ⟨"ssss", 9, [1], 0, 0⟩, [c2Peer], [], [], 1, 0⟩

/-- C2 sample incoming note: epoch 3, strictly newer than the stored note. -/
def c2Note : Note := ⟨"aaaa", 3, [1], 0, 0⟩

/-- C5 sample: a peer already carrying exactly the incoming accusation. -/
def c5Peer : Peer :=
  ⟨"aaaa", some ⟨"aaaa", 1, [1], 0, 0⟩, [⟨"aaaa", "bbbb", 0, 1, [1], 0, 0⟩], 0⟩

/-- C5 sample state: the accused is live and has no timer. -/
def c5St : NodeState := ⟨"ssss", ⟨"ssss", 9, [1], 0, 0⟩, [c5Peer], ["aaaa"], [], 1, 0⟩

/-- C5 sample wire accusation equal to the stored one. -/
def c5Acc : WireAcc := ⟨"aaaa", "bbbb", 1, 0, 0, 0⟩

/-- C6 sample: a currently accused peer contacting us as a non-neighbour. -/
def c6Peer : Peer :=
  ⟨"aaaa", some ⟨"aaaa", 5, [1], 0, 0⟩, [⟨"aaaa", "bbbb", 0, 5, [1], 0, 0⟩], 0⟩

/-- C6 sample state. -/
def c6St : NodeState := ⟨"ssss", ⟨"ssss", 9, [1], 0, 0⟩, [c6Peer], [], [], 1, 0⟩

/-- C6 sample Spread arguments: a rebuttal-only message (nil hosts map). -/
def c6Args : SpreadArgs := ⟨none, none, none⟩

/-- C7 sample: a peer whose stored note (epoch 2) is strictly newer than the
requester's recorded epoch 1 for it. -/
def c7Peer : Peer := ⟨"aaaa", some ⟨"aaaa", 2, [1], 0, 0⟩, [], 0⟩

/-- C7 sample state: self note epoch 5. -/
def c7St : NodeState := ⟨"ssss", ⟨"ssss", 5, [1], 0, 0⟩, [c7Peer], [], [], 1, 0⟩

/-- C7 sample existing_hosts map: requester is behind on `aaaa` (1 < 2) and
ahead on self (10 > 5). -/
def c7Given : List (String × Nat) := [("aaaa", 1), ("ssss", 10)]

/-- C9 sample state: empty full view (so any third-party accuser or accused
is unknown). -/
def c9St : NodeState := ⟨"ssss", ⟨"ssss", 9, [1], 0, 0⟩, [], [], [], 1, 0⟩

/-- C9 sample accusation: both parties unknown and not self. -/
def c9Acc : WireAcc := ⟨"aaaa", "bbbb", 1, 0, 0, 0⟩

/-- C3 sample old peer: ring successor `kB` with note epoch 5, mask [1]. -/
def c3Peer : OldPeer := ⟨"kB", "idB", "addrB", some ⟨"idB", 5, [1]⟩, none⟩

/-- C3 sample old node: one ring whose successor is `kB`. -/
def c3Node : OldNode := ⟨"idA", "addrA", [some ⟨"addrB", "kB"⟩], [c3Peer], []⟩

/-! ### Helper lemmas -/

theorem findPeer_cons (a : Peer) (l : List Peer) (id : String) :
    findPeer (a :: l) id = if a.id == id then some a else findPeer l id := by
  cases h : (a.id == id) <;> simp [findPeer, List.find?_cons, h]

theorem findPeer_updatePeer (peers : List Peer) (id : String) (p q : Peer)
    (h : findPeer peers id = some p) (hq : q.id = p.id) :
    findPeer (updatePeer peers q) id = some q := by
  induction peers with
  | nil => simp [findPeer] at h
  | cons a l ih =>
    rw [findPeer_cons] at h
    by_cases ha : (a.id == id) = true
    · rw [if_pos ha] at h
      have hpa : a = p := Option.some_inj.mp h
      subst hpa
      have haq : (a.id == q.id) = true := beq_iff_eq.mpr hq.symm
      have hstep : updatePeer (a :: l) q = q :: updatePeer l q := by
        simp only [updatePeer, List.map_cons]
        rw [if_pos haq]
      rw [hstep, findPeer_cons, if_pos (show (q.id == id) = true by rw [hq]; exact ha)]
    · rw [if_neg ha] at h
      have h' : List.find? (fun q => q.id == id) l = some p := h
      have hpid : (p.id == id) = true := by simpa using List.find?_some h'
      have haq : (a.id == q.id) = false := by
        rw [hq]
        by_contra hc
        have h1 : (a.id == p.id) = true := by
          cases hv : (a.id == p.id) with
          | true => rfl
          | false => exact absurd hv hc
        have h2 : a.id = p.id := beq_iff_eq.mp h1
        rw [h2] at ha
        exact ha hpid
      have hstep : updatePeer (a :: l) q = a :: updatePeer l q := by
        simp only [updatePeer, List.map_cons]
        rw [if_neg (by simpa using haq)]
      rw [hstep, findPeer_cons, if_neg ha]
      exact ih h

theorem findOldPeer_cons (a : OldPeer) (l : List OldPeer) (key : String) :
    findOldPeer (a :: l) key = if a.key == key then some a else findOldPeer l key := by
  cases h : (a.key == key) <;> simp [findOldPeer, List.find?_cons, h]

theorem findOldPeer_update (ps : List OldPeer) (key : String) (p q : OldPeer)
    (h : findOldPeer ps key = some p) (hq : q.key = p.key) :
    findOldPeer (updateOldPeer ps q) key = some q := by
  induction ps with
  | nil => simp [findOldPeer] at h
  | cons a l ih =>
    rw [findOldPeer_cons] at h
    by_cases ha : (a.key == key) = true
    · rw [if_pos ha] at h
      have hpa : a = p := Option.some_inj.mp h
      subst hpa
      have haq : (a.key == q.key) = true := beq_iff_eq.mpr hq.symm
      have hstep : updateOldPeer (a :: l) q = q :: updateOldPeer l q := by
        simp only [updateOldPeer, List.map_cons]
        rw [if_pos haq]
      rw [hstep, findOldPeer_cons,
        if_pos (show (q.key == key) = true by rw [hq]; exact ha)]
    · rw [if_neg ha] at h
      have h' : List.find? (fun q => q.key == key) l = some p := h
      have hpid : (p.key == key) = true := by simpa using List.find?_some h'
      have haq : (a.key == q.key) = false := by
        rw [hq]
        by_contra hc
        have h1 : (a.key == p.key) = true := by
          cases hv : (a.key == p.key) with
          | true => rfl
          | false => exact absurd hv hc
        have h2 : a.key = p.key := beq_iff_eq.mp h1
        rw [h2] at ha
        exact ha hpid
      have hstep : updateOldPeer (a :: l) q = a :: updateOldPeer l q := by
        simp only [updateOldPeer, List.map_cons]
        rw [if_neg (by simpa using haq)]
      rw [hstep, findOldPeer_cons, if_neg ha]
      exact ih h

theorem noteAbsentOrStale_eq (o : Option Note) (e : Nat) :
    noteAbsentOrStale o e = !(isOldNote o e) := by
  cases o <;> simp [noteAbsentOrStale, isOldNote]

theorem isEmpty_append_singleton {α : Type} (l : List α) (x : α) :
    (l ++ [x]).isEmpty = false := by
  cases l <;> rfl

theorem find?_ring_filter_append (l : List Accusation) (x : Accusation)
    (ring : Nat) (hx : x.ringNum = ring) :
    (l.filter (fun a => !(a.ringNum == ring)) ++ [x]).find?
      (fun a => a.ringNum == ring) = some x := by
  induction l with
  | nil => simp [List.find?, hx]
  | cons a l ih =>
    by_cases h : (a.ringNum == ring) = true
    · simpa [List.filter_cons, h] using ih
    · have h' : (a.ringNum == ring) = false := by
        cases hv : (a.ringNum == ring) with
        | true => exact absurd hv h
        | false => rfl
      simp [List.filter_cons, h', List.find?_cons, ih]

/-- evalNote never touches the node's own identity or own note: every state
it builds only rewrites the peers, live and timer fields. -/
theorem evalNote_preserves_self (env : Env) (st : NodeState) (gn : Note) :
    (evalNote env st gn).1.selfId = st.selfId ∧
    (evalNote env st gn).1.selfNote = st.selfNote := by
  unfold evalNote evalNoteFresh evalNoteRebut
  dsimp only
  repeat' split
  all_goals exact ⟨rfl, rfl⟩

/-- One pass of evalNote either leaves the state untouched (every error
path and the no-op path) or stores a note carrying the incoming epoch, so
that a repeat of the same note hits the OldNote guard. -/
theorem evalNote_cases (env : Env) (st : NodeState) (gn : Note) :
    (evalNote env st gn).1 = st ∨
    ∃ q, findPeer ((evalNote env st gn).1).peers gn.id = some q ∧
      isOldNote q.note gn.epoch = true := by
  rcases hfp : findPeer st.peers gn.id with _ | p
  · left; simp [evalNote, hfp]
  · by_cases hold : isOldNote p.note gn.epoch = true
    · left; simp [evalNote, hfp, hold]
    · have holdF : isOldNote p.note gn.epoch = false := by
        cases hv : isOldNote p.note gn.epoch with
        | true => exact absurd hv hold
        | false => rfl
      have habs : noteAbsentOrStale p.note gn.epoch = true := by
        rw [noteAbsentOrStale_eq, holdF]; rfl
      by_cases hvm : validMask st gn.mask = true
      · by_cases hemp : p.accusations.isEmpty = true
        · have hstep : evalNote env st gn = evalNoteFresh env st p gn := by
            simp [evalNote, hfp, holdF, hvm, hemp]
          by_cases hsig : env.noteSig gn p.id = true
          · right
            refine ⟨addNote p gn.mask gn.epoch gn.signR gn.signS, ?_, ?_⟩
            · have hpeers : ((evalNoteFresh env st p gn).1).peers =
                  updatePeer st.peers (addNote p gn.mask gn.epoch gn.signR gn.signS) := by
                unfold evalNoteFresh
                rw [habs, hsig]
                repeat' split
                all_goals try rfl
                all_goals try simp_all
                all_goals repeat' split
                all_goals first | rfl | simp_all
              rw [hstep, hpeers]
              exact findPeer_updatePeer st.peers gn.id p _ hfp rfl
            · simp [addNote, isOldNote, Note.IsMoreRecent]
          · left
            have hsigF : env.noteSig gn p.id = false := by
              cases hv : env.noteSig gn p.id with
              | true => exact absurd hv hsig
              | false => rfl
            rw [hstep]
            unfold evalNoteFresh
            rw [habs, hsigF]
            rfl
        · have hempF : p.accusations.isEmpty = false := by
            cases hv : p.accusations.isEmpty with
            | true => exact absurd hv hemp
            | false => rfl
          have hstep : evalNote env st gn = evalNoteRebut env st p gn := by
            simp [evalNote, hfp, holdF, hvm, hempF]
          by_cases hsig : env.noteSig gn p.id = true
          · right
            by_cases hacc2 : (addNote
                { p with accusations :=
                  p.accusations.filter (fun a => !(a.IsMoreRecent gn.epoch)) }
                gn.mask gn.epoch gn.signR gn.signS).IsAccused = true
            · refine ⟨addNote
                { p with accusations :=
                  p.accusations.filter (fun a => !(a.IsMoreRecent gn.epoch)) }
                gn.mask gn.epoch gn.signR gn.signS, ?_, ?_⟩
              · have hpeers : ((evalNoteRebut env st p gn).1).peers =
                    updatePeer st.peers (addNote
                      { p with accusations :=
                        p.accusations.filter (fun a => !(a.IsMoreRecent gn.epoch)) }
                      gn.mask gn.epoch gn.signR gn.signS) := by
                  unfold evalNoteRebut
                  rw [hsig, habs]
                  repeat' split
                  all_goals try rfl
                  all_goals try simp_all
                  all_goals repeat' split
                  all_goals first | rfl | simp_all
                rw [hstep, hpeers]
                exact findPeer_updatePeer st.peers gn.id p _ hfp rfl
              · simp [addNote, isOldNote, Note.IsMoreRecent]
            · have hacc2F : (addNote
                  { p with accusations :=
                    p.accusations.filter (fun a => !(a.IsMoreRecent gn.epoch)) }
                  gn.mask gn.epoch gn.signR gn.signS).IsAccused = false := by
                cases hv : (addNote
                    { p with accusations :=
                      p.accusations.filter (fun a => !(a.IsMoreRecent gn.epoch)) }
                    gn.mask gn.epoch gn.signR gn.signS).IsAccused with
                | true => exact absurd hv hacc2
                | false => rfl
              refine ⟨{ (addNote
                  { p with accusations :=
                    p.accusations.filter (fun a => !(a.IsMoreRecent gn.epoch)) }
                  gn.mask gn.epoch gn.signR gn.signS) with nPing := 0 }, ?_, ?_⟩
              · have hpeers : ((evalNoteRebut env st p gn).1).peers =
                    updatePeer st.peers { (addNote
                      { p with accusations :=
                        p.accusations.filter (fun a => !(a.IsMoreRecent gn.epoch)) }
                      gn.mask gn.epoch gn.signR gn.signS) with nPing := 0 } := by
                  unfold evalNoteRebut
                  rw [hsig, habs]
                  repeat' split
                  all_goals try rfl
                  all_goals try simp_all
                  all_goals repeat' split
                  all_goals first | rfl | simp_all
                rw [hstep, hpeers]
                exact findPeer_updatePeer st.peers gn.id p _ hfp rfl
              · simp [addNote, isOldNote, Note.IsMoreRecent]
          · left
            have hsigF : env.noteSig gn p.id = false := by
              cases hv : env.noteSig gn p.id with
              | true => exact absurd hv hsig
              | false => rfl
            rw [hstep]
            unfold evalNoteRebut
            rw [hsigF]
            rfl
      · left
        have hvmF : validMask st gn.mask = false := by
          cases hv : validMask st gn.mask with
          | true => exact absurd hv hvm
          | false => rfl
        simp [evalNote, hfp, holdF, hvmF]


/-! ### Claim theorems -/

/-- Claim C4: for every incoming note and every view state, applying
evalNote a second time after it has been applied once changes nothing —
the stored note, accusations, live view and timers (the whole node state)
are identical after one and after two applications. -/
theorem c4_evalNote_idempotent (env : Env) (st : NodeState) (gn : Note) :
    (evalNote env (evalNote env st gn).1 gn).1 = (evalNote env st gn).1 := by
  rcases evalNote_cases env st gn with h | ⟨q, hq, hold⟩
  · rw [h]; exact h
  · generalize hst1 : (evalNote env st gn).1 = st1 at hq ⊢
    simp [evalNote, hq, hold]

/-- Claim C8: mergeNotes never changes the local peer's own note — notes
whose id equals self's id are skipped (running mergeNotes on a list equals
running it on the list with all self-notes filtered out), and self's note
is the same before and after, whatever the list contains. -/
theorem c8_mergeNotes_self (env : Env) (st : NodeState) (notes : List Note) :
    (mergeNotes env st notes).selfNote = st.selfNote ∧
    mergeNotes env st notes =
      mergeNotes env st (notes.filter (fun gn => !(st.selfId == gn.id))) := by
  induction notes generalizing st with
  | nil => exact ⟨rfl, rfl⟩
  | cons gn rest ih =>
    by_cases h : (st.selfId == gn.id) = true
    · have hfilter : (gn :: rest).filter (fun n => !(st.selfId == n.id)) =
          rest.filter (fun n => !(st.selfId == n.id)) := by
        simp [List.filter_cons, h]
      have hmerge : mergeNotes env st (gn :: rest) = mergeNotes env st rest := by
        simp [mergeNotes, h]
      rw [hmerge, hfilter]
      exact ih st
    · have hF : (st.selfId == gn.id) = false := by
        cases hv : (st.selfId == gn.id) with
        | true => exact absurd hv h
        | false => rfl
      have hfilter : (gn :: rest).filter (fun n => !(st.selfId == n.id)) =
          gn :: rest.filter (fun n => !(st.selfId == n.id)) := by
        simp [List.filter_cons, hF]
      have hmerge : mergeNotes env st (gn :: rest) =
          mergeNotes env (evalNote env st gn).1 rest := by
        simp [mergeNotes, hF]
      have hid := (evalNote_preserves_self env st gn).1
      have hnote := (evalNote_preserves_self env st gn).2
      have ih2 := ih (evalNote env st gn).1
      constructor
      · rw [hmerge, ih2.1, hnote]
      · rw [hmerge, hfilter]
        have hfold : mergeNotes env st (gn :: rest.filter (fun n => !(st.selfId == n.id))) =
            mergeNotes env (evalNote env st gn).1
              (rest.filter (fun n => !(st.selfId == n.id))) := by
          simp [mergeNotes, hF]
        rw [hfold, ih2.2]
        simp only [hid]

/-- Claim C5: when the accused peer already stores an accusation for the
incoming ring equal to the incoming one (same accused, accuser, ring,
epoch), evalAccusation returns AlreadyExists, leaves the stored accusations
(and the live view) unchanged, and opens a timer exactly when no timer
exists for the peer and the peer is still in the live view.  (The accused
is a non-self peer: the self branch of evalAccusation fires first.) -/
theorem c5_evalAccusation_alreadyExists (env : Env) (st : NodeState)
    (a : WireAcc) (accuserId : String) (p : Peer)
    (hself : (st.selfId == p.id) = false)
    (hex : accExists p accuserId a.ringNum a.epoch = true) :
    (evalAccusation env st a accuserId p).2 = some .accAlreadyExists ∧
    (evalAccusation env st a accuserId p).1.peers = st.peers ∧
    (evalAccusation env st a accuserId p).1.live = st.live ∧
    (evalAccusation env st a accuserId p).1.timers =
      (if hasTimer st p.id = false ∧ isAlive st p.id = true
       then p.id :: st.timers else st.timers) := by
  have hred : evalAccusation env st a accuserId p =
      (if !(hasTimer st p.id) && isAlive st p.id then startTimer st p.id else st,
       some .accAlreadyExists) := by
    unfold evalAccusation
    rw [hself]
    rw [if_neg (by simp)]
    rw [hex]
    rw [if_pos rfl]
  rw [hred]
  cases ht : hasTimer st p.id with
  | true => simp [ht, startTimer]
  | false =>
    cases ha : isAlive st p.id with
    | true => simp [ht, ha, startTimer]
    | false => simp [ht, ha, startTimer]

/-- Claim C5 witness: a concrete accused peer with the equal stored
accusation, live and timerless, gets only a fresh timer and AlreadyExists. -/
theorem c5_witness :
    (c5St.selfId == c5Peer.id) = false ∧
    accExists c5Peer "bbbb" c5Acc.ringNum c5Acc.epoch = true ∧
    ((evalAccusation allOkEnv c5St c5Acc "bbbb" c5Peer).2 = some .accAlreadyExists ∧
     (evalAccusation allOkEnv c5St c5Acc "bbbb" c5Peer).1.peers = c5St.peers ∧
     (evalAccusation allOkEnv c5St c5Acc "bbbb" c5Peer).1.live = c5St.live ∧
     (evalAccusation allOkEnv c5St c5Acc "bbbb" c5Peer).1.timers =
       (if hasTimer c5St c5Peer.id = false ∧ isAlive c5St c5Peer.id = true
        then c5Peer.id :: c5St.timers else c5St.timers)) :=
  ⟨by decide, by decide,
   c5_evalAccusation_alreadyExists allOkEnv c5St c5Acc "bbbb" c5Peer
     (by decide) (by decide)⟩

/-- Claim C9: mergeAccusations drops — leaving the node state unchanged,
without invoking evalAccusation — any accusation whose accuser is neither
self nor in the full view, or whose accused is neither self nor a full-view
peer with a stored note. -/
theorem c9_mergeAccusations_drop (env : Env) (st : NodeState) (a : WireAcc)
    (h : (a.accuser ≠ st.selfId ∧ findPeer st.peers a.accuser = none) ∨
         (a.accused ≠ st.selfId ∧
           ∀ q, findPeer st.peers a.accused = some q → q.note = none)) :
    mergeOneAccusation env st a = st ∧ mergeAccusations env st [a] = st := by
  have hone : mergeOneAccusation env st a = st := by
    rcases h with ⟨hne, hnf⟩ | ⟨hne, hnq⟩
    · have hbeq : (a.accuser == st.selfId) = false := by
        cases hv : (a.accuser == st.selfId) with
        | true => exact absurd (beq_iff_eq.mp hv) hne
        | false => rfl
      unfold mergeOneAccusation
      rw [hbeq]
      rw [if_neg (by simp)]
      rw [hnf]
    · have hbeq : (a.accused == st.selfId) = false := by
        cases hv : (a.accused == st.selfId) with
        | true => exact absurd (beq_iff_eq.mp hv) hne
        | false => rfl
      have haccused : mergeAccAccused env st a a.accuser = st := by
        unfold mergeAccAccused
        rw [hbeq]
        rw [if_neg (by simp)]
        cases hq : findPeer st.peers a.accused with
        | none => rfl
        | some q =>
          have : q.note = none := hnq q hq
          simp [this]
      have haccusedSelf : mergeAccAccused env st a st.selfId = st := by
        unfold mergeAccAccused
        rw [hbeq]
        rw [if_neg (by simp)]
        cases hq : findPeer st.peers a.accused with
        | none => rfl
        | some q =>
          have : q.note = none := hnq q hq
          simp [this]
      unfold mergeOneAccusation
      cases hb : (a.accuser == st.selfId) with
      | true => simpa using haccusedSelf
      | false =>
        cases hf : findPeer st.peers a.accuser with
        | none => simp
        | some r => simpa using haccused
  exact ⟨hone, by simp [mergeAccusations, hone]⟩

/-- Claim C9 witness: an accusation whose accuser (and accused) are unknown
to an empty view is dropped without any state change. -/
theorem c9_witness :
    (c9Acc.accuser ≠ c9St.selfId ∧ findPeer c9St.peers c9Acc.accuser = none) ∧
    (mergeOneAccusation allOkEnv c9St c9Acc = c9St ∧
     mergeAccusations allOkEnv c9St [c9Acc] = c9St) :=
  ⟨⟨by decide, by decide⟩,
   c9_mergeAccusations_drop allOkEnv c9St c9Acc (Or.inl ⟨by decide, by decide⟩)⟩

/-- Claim C6: when Spread is called by a sender in the full view that
should not be a neighbour, the sender's own note is evaluated in all cases;
if the sender is currently accused the reply carries every accusation now
stored against it and no error, otherwise the call fails with
NotMyNeighbour and no reply. -/
theorem c6_spread_not_neighbour (env : Env) (st : NodeState)
    (remoteId : String) (args : SpreadArgs) (p : Peer)
    (hp : findPeer st.peers remoteId = some p)
    (hnb : env.shouldBeNeighbour remoteId = false) :
    (Spread env st remoteId args).st =
      (evalNote env st (args.ownNote.getD zeroNote)).1 ∧
    (p.IsAccused = true →
      (Spread env st remoteId args).err = none ∧
      (Spread env st remoteId args).reply = some { emptyReply with
        accusations :=
          accsInView (evalNote env st (args.ownNote.getD zeroNote)).1 remoteId }) ∧
    (p.IsAccused = false →
      (Spread env st remoteId args).err = some .notMyNeighbour ∧
      (Spread env st remoteId args).reply = none) := by
  have hsp : Spread env st remoteId args = spreadCaseB env st remoteId args p := by
    simp [Spread, hnb, hp]
  rw [hsp]
  unfold spreadCaseB
  cases hacc : p.IsAccused with
  | true =>
    rw [if_neg (by simp [hacc])]
    refine ⟨rfl, ?_, ?_⟩
    · intro _; exact ⟨rfl, rfl⟩
    · intro hcon; cases hcon
  | false =>
    rw [if_pos (by simp [hacc])]
    refine ⟨rfl, ?_, ?_⟩
    · intro hcon; cases hcon
    · intro _; exact ⟨rfl, rfl⟩

/-- Claim C6 witness: an accused non-neighbour sender gets its stored
accusation back with no error, after its (nil) note was evaluated. -/
theorem c6_witness :
    findPeer c6St.peers "aaaa" = some c6Peer ∧
    allOkEnv.shouldBeNeighbour "aaaa" = false ∧
    ((Spread allOkEnv c6St "aaaa" c6Args).st =
       (evalNote allOkEnv c6St (c6Args.ownNote.getD zeroNote)).1 ∧
     (c6Peer.IsAccused = true →
       (Spread allOkEnv c6St "aaaa" c6Args).err = none ∧
       (Spread allOkEnv c6St "aaaa" c6Args).reply = some { emptyReply with
         accusations :=
           accsInView (evalNote allOkEnv c6St (c6Args.ownNote.getD zeroNote)).1
             "aaaa" }) ∧
     (c6Peer.IsAccused = false →
       (Spread allOkEnv c6St "aaaa" c6Args).err = some .notMyNeighbour ∧
       (Spread allOkEnv c6St "aaaa" c6Args).reply = none)) :=
  ⟨by decide, rfl,
   c6_spread_not_neighbour allOkEnv c6St "aaaa" c6Args c6Peer (by decide) rfl⟩

/-- Claim C1 counterexample: the claimed invariant "every peer in the live
view has no stored accusations" is false right after evalAccusation stores
a new accusation against a live peer — evalAccusation starts a timer but
never removes the peer from the live view, so the peer is simultaneously
live and accused. -/
theorem c1_counterexample :
    isAlive (evalAccusation allOkEnv c1St c1Acc "bbbb" c1Peer).1 "aaaa" = true ∧
    accusedInView (evalAccusation allOkEnv c1St c1Acc "bbbb" c1Peer).1 "aaaa" = true := by
  decide

/-- Claim C1 amended: when evalAccusation stores a new accusation against a
peer that was in the live view (and timerless), the accusation is stored,
the peer stays in the live view, and a timer is opened; the live/accused
exclusion is only restored later by rebuttal or timer expiry. -/
theorem c1_amended (env : Env) (st : NodeState) (a : WireAcc)
    (accuserId : String) (p : Peer) (note : Note)
    (hfp : findPeer st.peers p.id = some p)
    (hself : (st.selfId == p.id) = false)
    (hex : accExists p accuserId a.ringNum a.epoch = false)
    (hnote : p.note = some note)
    (hep : (note.epoch == a.epoch) = true)
    (hdis : isRingDisabled note.mask a.ringNum = false)
    (hva : env.validAccuser p.id accuserId a.ringNum = true)
    (hsig : env.accSig a accuserId = true)
    (halive : isAlive st p.id = true)
    (htimer : hasTimer st p.id = false) :
    (evalAccusation env st a accuserId p).2 = none ∧
    isAlive (evalAccusation env st a accuserId p).1 p.id = true ∧
    hasTimer (evalAccusation env st a accuserId p).1 p.id = true ∧
    accusedInView (evalAccusation env st a accuserId p).1 p.id = true := by
  have hcond : (!(hasTimer { st with peers := updatePeer st.peers (addAccusation p accuserId a.epoch note.mask a.ringNum a.signR a.signS) } (addAccusation p accuserId a.epoch note.mask a.ringNum a.signR a.signS).id) && isAlive { st with peers := updatePeer st.peers (addAccusation p accuserId a.epoch note.mask a.ringNum a.signR a.signS) } (addAccusation p accuserId a.epoch note.mask a.ringNum a.signR a.signS).id) = true := by
    show (!(hasTimer st p.id) && isAlive st p.id) = true
    rw [htimer, halive]
    rfl
  have hred : evalAccusation env st a accuserId p =
      (startTimer { st with peers := updatePeer st.peers (addAccusation p accuserId a.epoch note.mask a.ringNum a.signR a.signS) } (addAccusation p accuserId a.epoch note.mask a.ringNum a.signR a.signS).id,
       none) := by
    unfold evalAccusation
    rw [hself]
    rw [if_neg (by simp)]
    rw [hex]
    rw [if_neg (by simp)]
    rw [hnote]
    try dsimp only
    rw [hep]
    rw [if_pos rfl]
    rw [hdis]
    rw [if_neg (by simp)]
    rw [hva]
    rw [if_neg (by simp)]
    rw [hsig]
    rw [if_neg (by simp)]
    try dsimp only
    rw [if_pos hcond]
  rw [hred]
  refine ⟨rfl, ?_, ?_, ?_⟩
  · show isAlive st p.id = true
    exact halive
  · show (p.id :: st.timers).contains p.id = true
    simp
  · have hfind : findPeer (updatePeer st.peers
        (addAccusation p accuserId a.epoch note.mask a.ringNum a.signR a.signS)) p.id =
        some (addAccusation p accuserId a.epoch note.mask a.ringNum a.signR a.signS) :=
      findPeer_updatePeer st.peers p.id p _ hfp rfl
    unfold accusedInView
    dsimp only [startTimer]
    rw [hfind]
    simp [addAccusation, Peer.IsAccused, isEmpty_append_singleton]

/-- Claim C1 amended witness: the concrete run behind the counterexample —
the accusation is stored, the peer stays live, a timer opens. -/
theorem c1_amended_witness :
    findPeer c1St.peers c1Peer.id = some c1Peer ∧
    (c1St.selfId == c1Peer.id) = false ∧
    accExists c1Peer "bbbb" c1Acc.ringNum c1Acc.epoch = false ∧
    c1Peer.note = some ⟨"aaaa", 1, [1], 0, 0⟩ ∧
    ((1 : Nat) == c1Acc.epoch) = true ∧
    isRingDisabled [1] c1Acc.ringNum = false ∧
    allOkEnv.validAccuser c1Peer.id "bbbb" c1Acc.ringNum = true ∧
    allOkEnv.accSig c1Acc "bbbb" = true ∧
    isAlive c1St c1Peer.id = true ∧
    hasTimer c1St c1Peer.id = false ∧
    ((evalAccusation allOkEnv c1St c1Acc "bbbb" c1Peer).2 = none ∧
     isAlive (evalAccusation allOkEnv c1St c1Acc "bbbb" c1Peer).1 c1Peer.id = true ∧
     hasTimer (evalAccusation allOkEnv c1St c1Acc "bbbb" c1Peer).1 c1Peer.id = true ∧
     accusedInView (evalAccusation allOkEnv c1St c1Acc "bbbb" c1Peer).1 c1Peer.id = true) :=
  ⟨by decide, by decide, by decide, by decide, by decide, by decide, rfl, rfl,
   by decide, by decide,
   c1_amended allOkEnv c1St c1Acc "bbbb" c1Peer ⟨"aaaa", 1, [1], 0, 0⟩
     (by decide) (by decide) (by decide) (by decide) (by decide) (by decide)
     rfl rfl (by decide) (by decide)⟩

/-- Claim C2 counterexample: an accepted rebuttal note (epoch 3, strictly
newer than the stored note's epoch 1) does not remove a stored accusation
whose epoch equals the note's epoch — evalNote only drops accusations with
epoch strictly below the note's — contradicting the claimed "every stored
accusation whose epoch is less than or equal to the new note's epoch is
removed". -/
theorem c2_counterexample :
    (evalNote allOkEnv c2St c2Note).2 = none ∧
    accsInView (evalNote allOkEnv c2St c2Note).1 "aaaa" =
      [⟨"aaaa", "bbbb", 0, 3, [1], 0, 0⟩] ∧
    ((3 : Nat) ≤ c2Note.epoch) = True := by
  refine ⟨by decide, by decide, by simp [c2Note]⟩

/-- Claim C2 amended: when evalNote accepts a note for an accused peer (a
rebuttal with note epoch strictly greater than the stored note's epoch),
exactly the stored accusations with epoch strictly less than the new note's
epoch are removed: the survivors are precisely those with epoch at least
the note's epoch. -/
theorem c2_amended (env : Env) (st : NodeState) (gn : Note) (p : Peer) (note : Note)
    (hfp : findPeer st.peers gn.id = some p)
    (hnote : p.note = some note)
    (hlt : note.epoch < gn.epoch)
    (hvm : validMask st gn.mask = true)
    (hne : p.accusations.isEmpty = false)
    (hsig : env.noteSig gn p.id = true) :
    ∃ q, findPeer ((evalNote env st gn).1).peers gn.id = some q ∧
      q.accusations = p.accusations.filter (fun a => decide (gn.epoch ≤ a.epoch)) := by
  have holdF : isOldNote p.note gn.epoch = false := by
    rw [hnote]; simp [isOldNote, Note.IsMoreRecent, hlt]
  have habs : noteAbsentOrStale p.note gn.epoch = true := by
    rw [noteAbsentOrStale_eq, holdF]; rfl
  have hstep : evalNote env st gn = evalNoteRebut env st p gn := by
    simp [evalNote, hfp, holdF, hvm, hne]
  have hfilt : p.accusations.filter (fun a => !(a.IsMoreRecent gn.epoch)) =
      p.accusations.filter (fun a => decide (gn.epoch ≤ a.epoch)) := by
    apply List.filter_congr
    intro a _
    cases Nat.lt_or_ge a.epoch gn.epoch with
    | inl h => simp [Accusation.IsMoreRecent, h, Nat.not_le.mpr h]
    | inr h => simp [Accusation.IsMoreRecent, Nat.not_lt.mpr h, h]
  rw [hstep]
  cases hacc : (addNote { p with accusations := p.accusations.filter (fun a => !(a.IsMoreRecent gn.epoch)) } gn.mask gn.epoch gn.signR gn.signS).IsAccused with
  | true =>
    have hpeers : ((evalNoteRebut env st p gn).1).peers =
        updatePeer st.peers (addNote { p with accusations := p.accusations.filter (fun a => !(a.IsMoreRecent gn.epoch)) } gn.mask gn.epoch gn.signR gn.signS) := by
      unfold evalNoteRebut
      rw [hsig]
      rw [if_neg (by simp)]
      try dsimp only
      rw [habs]
      rw [if_pos rfl]
      rw [if_pos hacc]
    refine ⟨addNote { p with accusations := p.accusations.filter (fun a => !(a.IsMoreRecent gn.epoch)) } gn.mask gn.epoch gn.signR gn.signS, ?_, ?_⟩
    · rw [hpeers]
      exact findPeer_updatePeer st.peers gn.id p _ hfp rfl
    · exact hfilt
  | false =>
    have hpeers : ((evalNoteRebut env st p gn).1).peers =
        updatePeer st.peers { (addNote { p with accusations := p.accusations.filter (fun a => !(a.IsMoreRecent gn.epoch)) } gn.mask gn.epoch gn.signR gn.signS) with nPing := 0 } := by
      unfold evalNoteRebut
      rw [hsig]
      rw [if_neg (by simp)]
      try dsimp only
      rw [habs]
      rw [if_pos rfl]
      rw [if_neg (by simp [hacc])]
      try dsimp only
      repeat' split
      all_goals rfl
    refine ⟨{ (addNote { p with accusations := p.accusations.filter (fun a => !(a.IsMoreRecent gn.epoch)) } gn.mask gn.epoch gn.signR gn.signS) with nPing := 0 }, ?_, ?_⟩
    · rw [hpeers]
      exact findPeer_updatePeer st.peers gn.id p _ hfp rfl
    · exact hfilt

/-- Claim C2 amended witness: the concrete rebuttal keeps exactly the
accusation whose epoch (3) is not below the note's epoch (3). -/
theorem c2_amended_witness :
    findPeer c2St.peers "aaaa" = some c2Peer ∧
    c2Peer.note = some ⟨"aaaa", 1, [1], 0, 0⟩ ∧
    (1 : Nat) < c2Note.epoch ∧
    validMask c2St c2Note.mask = true ∧
    c2Peer.accusations.isEmpty = false ∧
    allOkEnv.noteSig c2Note "aaaa" = true ∧
    (∃ q, findPeer ((evalNote allOkEnv c2St c2Note).1).peers "aaaa" = some q ∧
      q.accusations = c2Peer.accusations.filter
        (fun a => decide (c2Note.epoch ≤ a.epoch))) :=
  ⟨by decide, by decide, by decide, by decide, by decide, rfl,
   c2_amended allOkEnv c2St c2Note c2Peer ⟨"aaaa", 1, [1], 0, 0⟩
     (by decide) (by decide) (by decide) (by decide) (by decide) rfl⟩

/-- Claim C3 counterexample: with a successor whose current note has
epoch 5 and mask [1], a failed monitor RPC produces an accusation with
epoch 6 (the note's epoch plus one) and an empty mask — not the note's
epoch and mask, and the old accusation record carries no ring number at
all. -/
theorem c3_counterexample :
    oldAccOf (Monitor (fun _ => true) c3Node) "kB" = some ⟨"idB", 6, "idA", []⟩ ∧
    c3Peer.recentNote = some ⟨"idB", 5, [1]⟩ ∧
    ¬((6 : Nat) = 5) ∧ ¬(([] : List Nat) = [1]) := by
  decide

/-- Claim C3 amended: when the monitor RPC to a ring successor fails (a
single failure — this path counts no retries), the stored accusation
carries epoch equal to the successor's current note's epoch plus one,
accuser self, accused the successor, and an empty mask; the old accusation
record has no ring-number field. -/
theorem c3_amended (fails : String → Bool) (n : OldNode) (succ : RingSucc)
    (p : OldPeer) (peerNote : OldNote)
    (hr : n.rings = [some succ])
    (haddr : (succ.addr == n.localAddr) = false)
    (hf : fails succ.addr = true)
    (hp : findOldPeer n.peers succ.peerKey = some p)
    (hn : p.recentNote = some peerNote) :
    findOldPeer (Monitor fails n).peers succ.peerKey =
      some (setAccusation p ⟨p.id, peerNote.epoch + 1, n.selfId, []⟩) := by
  have hfind : findOldPeer (updateOldPeer n.peers (setAccusation p ⟨p.id, peerNote.epoch + 1, n.selfId, []⟩)) succ.peerKey =
      some (setAccusation p ⟨p.id, peerNote.epoch + 1, n.selfId, []⟩) :=
    findOldPeer_update n.peers succ.peerKey p _ hp rfl
  unfold Monitor
  rw [hr]
  simp only [monitorGo, haddr, hf, hp, hn]
  repeat' split
  all_goals first | exact hfind | simp_all

/-- Claim C3 amended witness: the concrete run behind the counterexample. -/
theorem c3_amended_witness :
    c3Node.rings = [some ⟨"addrB", "kB"⟩] ∧
    ((RingSucc.mk "addrB" "kB").addr == c3Node.localAddr) = false ∧
    findOldPeer c3Node.peers "kB" = some c3Peer ∧
    c3Peer.recentNote = some ⟨"idB", 5, [1]⟩ ∧
    findOldPeer (Monitor (fun _ => true) c3Node).peers "kB" =
      some (setAccusation c3Peer ⟨c3Peer.id, 5 + 1, c3Node.selfId, []⟩) :=
  ⟨rfl, by decide, by decide, by decide,
   c3_amended (fun _ => true) c3Node ⟨"addrB", "kB"⟩ c3Peer ⟨"idB", 5, [1]⟩
     rfl (by decide) rfl (by decide) (by decide)⟩

/-- Claim C7 exhibit: at a concrete input where the requester's recorded
epoch for peer `aaaa` (1) is strictly below the stored note's epoch (2) and
the requester's epoch for self (10) is strictly above self's note epoch
(5), mergeViews appends no note for `aaaa` and does append self's note —
the exact opposite of the claimed (and documented) epoch gating, because
the epoch comparison in both note gates is inverted. -/
theorem c7_mergeViews_behavior :
    mergeViews c7St c7Given emptyReply =
      ⟨[], [⟨"ssss", 5, [1], 0, 0⟩], [], none⟩ := by
  decide

/-- Claim C10: SetGossipContent rejects length-0 data with an error and
leaves the gossip payload untouched; any non-empty data replaces the
payload and returns no error. -/
theorem c10_setGossipContent (c : ClientState) (data : List Nat) :
    (data = [] → SetGossipContent c data = (c, some .noData)) ∧
    (data ≠ [] → SetGossipContent c data =
      ({ c with gossipContent := some data }, none)) := by
  constructor
  · intro h; subst h; rfl
  · intro h
    unfold SetGossipContent
    rw [if_neg (by simp [Nat.le_zero, List.length_eq_zero, h])]

/-- Claim C10 witness: the empty payload is rejected without replacement,
a one-byte payload is stored with no error. -/
theorem c10_witness :
    SetGossipContent ⟨none⟩ [] = (⟨none⟩, some .noData) ∧
    ([1] : List Nat) ≠ [] ∧
    SetGossipContent ⟨none⟩ [1] = (⟨some [1]⟩, none) :=
  ⟨(c10_setGossipContent ⟨none⟩ []).1 rfl, by decide,
   (c10_setGossipContent ⟨none⟩ [1]).2 (by decide)⟩

end Ifrit
